import Mathlib

/-!
Verification of the DMG assembly pipeline
(`src/tooling/bundler/src/bundle/macos/dmg.rs`, function `bundle_project`).

Shallow embedding conventions:
* a filesystem path is a list of components (`Path`); the Rust
  `Path::file_name` is the last component, absent for the empty path;
* the filesystem is a finite list of (path, contents) pairs; directories
  are implicit (a directory exists when some file lies at or under it);
* child-process executions and the external collaborators
  (application-bundle builder, icon converter, signer, the assembly tool)
  are oracles collected in a `World` record;
* Rust panics (`unwrap`, `expect`) and recoverable errors (`?` with
  `context`) are distinguished in the `Outcome` type;
* the pipeline records an `Event` trace of the collaborator invocations.
-/

namespace Dmg

abbrev Path := List String

/-- Rust `Path::file_name`: the last path component, `none` when absent. -/
def fileName (p : Path) : Option String := p.getLast?

/-- Rust `Path::to_string_lossy`, for rendering the eula path. -/
def pathString (p : Path) : String := String.intercalate ("/") p

/-- Model of a filesystem: the finite set of files, as (path, contents). -/
abbrev Fs := List (Path × String)

/-- Whether path `d` is `p` itself or an ancestor of `p`. -/
def underDir : Path → Path → Bool
  | [], _ => true
  | _ :: _, [] => false
  | a :: as, b :: bs => a == b && underDir as bs

/-- Rust `path.exists()`: some file lies at or under the path. -/
def existsPath (p : Path) (fs : Fs) : Bool :=
  fs.any (fun e => underDir p e.1)

/-- Rust `fs::remove_dir_all`: drop every file at or under the path. -/
def removeDirAll (p : Path) (fs : Fs) : Fs :=
  fs.filter (fun e => !(underDir p e.1))

/-- Rust `fs::write`: create or overwrite one file. -/
def writeFile (p : Path) (c : String) (fs : Fs) : Fs :=
  (p, c) :: fs.filter (fun e => !(e.1 == p))

/-- Rust `fs::rename`: move a file to a new path (no-op when absent). -/
def renameFile (src dst : Path) (fs : Fs) : Fs :=
  match fs.find? (fun e => e.1 == src) with
  | some e => writeFile dst e.2 (fs.filter (fun x => !(x.1 == src)))
  | none => fs

/-- The files lying at or under a directory. -/
def filesUnder (dir : Path) (fs : Fs) : Fs :=
  fs.filter (fun e => underDir dir e.1)

/-- Rust `fs.find?`-style read of one file's contents. -/
def readFile (p : Path) (fs : Fs) : Option String :=
  (fs.find? (fun e => e.1 == p)).map (fun e => e.2)

/-- Package types of produced bundles; `bundle_project` only ever compares
against the macOS application-bundle type. -/
inductive PackageType
  | MacOsBundle
  | OtherBundle
deriving DecidableEq

/-- A bundle produced earlier in the build, carrying its package type. -/
structure Bundle where
  package_type : PackageType
deriving DecidableEq

/-- The macOS sub-configuration of `Settings` read by `bundle_project`. -/
structure MacOsSettings where
  attachments : Option (List Path)
  background : Option Path
  license : Option Path
  signing_identity : Option String
deriving DecidableEq

/-- The fields of `Settings` read by `bundle_project`. -/
structure Settings where
  project_out_directory : Path
  main_binary_name : String
  version_string : String
  binary_arch : String
  macos : MacOsSettings
deriving DecidableEq

/-- Outcome of one child-process execution: either the spawn itself failed,
or the process ran and exited with a status and combined output. -/
inductive ProcResult
  | spawnFailed (msg : String)
  | exited (status : Nat) (output : String)
deriving DecidableEq

/-- Result of one pipeline run: normal return value, recoverable error
(Rust `Err`), or a panic (`unwrap` / `expect`). -/
inductive Outcome
  | ok (artifacts : List Path)
  | error (msg : String)
  | panicked (msg : String)
deriving DecidableEq

/-- Whether an outcome is a recoverable error (as opposed to ok / panic). -/
def Outcome.isError : Outcome → Bool
  | .error _ => true
  | _ => false

/-- Collaborator invocations recorded by the pipeline, in order. -/
inductive Event
  | appBundle
  | chmodCall (script : Path)
  | runScript (script : Path) (cwd : Path) (args : List String)
  | signCall (path : Path) (identity : String)
deriving DecidableEq

/-- Oracles for everything outside this translation unit: collaborator
results, process outcomes and the process environment. -/
structure World where
  appBundleResult : Except String Unit
  chmodResult : ProcResult
  icnsResult : Except String (Option String)
  currentDir : Path
  ciVar : Option String
  scriptResult : ProcResult
  signResult : String → Except String Unit

-- Path derivations (`bundle_project` lines 37-68).

def outputPath (s : Settings) : Path :=
  s.project_out_directory ++ ["bundle", "dmg"]

def packageBaseName (s : Settings) : String :=
  s.main_binary_name ++ ("_") ++ s.version_string ++ ("_") ++
    (match s.binary_arch with
     | "x86_64" => "x64"
     | other => other)

def dmgName (s : Settings) : String := packageBaseName s ++ (".dmg")

def dmgPath (s : Settings) : Path := outputPath s ++ [dmgName s]

def bundleFileName (s : Settings) : String := s.main_binary_name ++ (".app")

def bundleDir (s : Settings) : Path :=
  s.project_out_directory ++ ["bundle", "macos"]

def supportDirectoryPath (s : Settings) : Path := outputPath s ++ ["support"]

def bundleScriptPath (s : Settings) : Path := outputPath s ++ ["bundle_dmg.sh"]

/-- Modelled from the spec: the three staged resource blobs are
compile-time constants of the system (their template files are not part of
the sources under verification); only their identities matter here. -/
def bundleDmgScriptBlob : String := "bundle_dmg script contents"

/-- Modelled from the spec: the AppleScript template blob. -/
def templateApplescriptBlob : String := "template applescript contents"

/-- Modelled from the spec: the EULA resources template blob. -/
def eulaTemplateBlob : String := "eula resources template contents"

/-- Modelled from the spec: the disk-image assembly tool produces the DMG
inside the application-bundle working directory; its contents stand in as
an abstract token. -/
def dmgBlob : String := "dmg contents"

/-- Staging (`bundle_project` lines 55-84): remove a pre-existing output
directory, create the support directory, write the three resources. -/
def stageFs (s : Settings) (fs : Fs) : Fs :=
  let fs := if existsPath (outputPath s) fs then removeDirAll (outputPath s) fs else fs
  -- create_dir_all: directories are implicit in this filesystem model
  let fs := writeFile (bundleScriptPath s) bundleDmgScriptBlob fs
  let fs := writeFile (supportDirectoryPath s ++ ["template.applescript"]) templateApplescriptBlob fs
  writeFile (supportDirectoryPath s ++ ["eula-resources-template.xml"]) eulaTemplateBlob fs

-- Argument construction (`bundle_project` lines 96-171).

/-- The fixed leading arguments (lines 96-114). -/
def baseArgs (s : Settings) : List String :=
  ["--no-internet-enable", "--volname", s.main_binary_name,
   "--icon-size", "100",
   "--icon", bundleFileName s, "75", "64",
   "--app-drop-link", "396", "64",
   "--window-size", "571", "375",
   "--hide-extension", bundleFileName s]

/-- A panic message, produced where the Rust code calls `unwrap`. -/
abbrev PanicMsg := String

/-- Rust `file_name().unwrap()`: panics when the component is absent. -/
def unwrapFileName (p : Path) : Except PanicMsg String :=
  match fileName p with
  | some n => Except.ok n
  | none => Except.error ("called Option unwrap on a None value")

/-- The attachment loop (lines 118-139): chunk index `index` over pairs of
attachments; the first of a pair at x 75, the second (when present) at
x 396, both at y 64 + (index + 1) * (100 + 60). -/
def attachmentArgsAux : Nat → List Path → Except PanicMsg (List String)
  | _, [] => Except.ok []
  | index, [first] => do
    let n ← unwrapFileName first
    Except.ok ["--add-file", n, n, "75", toString (64 + (index + 1) * (100 + 60))]
  | index, first :: second :: rest => do
    let n1 ← unwrapFileName first
    let n2 ← unwrapFileName second
    let tail ← attachmentArgsAux (index + 1) rest
    Except.ok (["--add-file", n1, n1, "75", toString (64 + (index + 1) * (100 + 60)),
                "--add-file", n2, n2, "396", toString (64 + (index + 1) * (100 + 60))] ++ tail)

/-- Arguments contributed by the attachment list. -/
def attachmentArgs (attachments : List Path) : Except PanicMsg (List String) :=
  attachmentArgsAux 0 attachments

/-- Lines 116-140: the attachment block runs only when configured. -/
def attachmentArgsOpt : Option (List Path) → Except PanicMsg (List String)
  | some l => attachmentArgs l
  | none => Except.ok []

/-- Lines 144-147: the optional volume icon from the icon converter. -/
def volIconArgs : Option String → List String
  | some icon => ["--volicon", icon]
  | none => []

/-- Lines 149-152: the optional background, by file name only. -/
def backgroundArgs : Option Path → Except PanicMsg (List String)
  | some bg => do
    let n ← unwrapFileName bg
    Except.ok ["--background", n]
  | none => Except.ok []

/-- Lines 156-163: the optional eula, resolved against the current
directory. -/
def eulaArgs (cwd : Path) : Option Path → List String
  | some lp => ["--eula", pathString (cwd ++ lp)]
  | none => []

/-- Lines 167-171: append the skip-jenkins flag exactly when the CI
environment variable is present and equal to the literal "true". -/
def ciArgs : Option String → List String
  | some v => if v = "true" then ["--skip-jenkins"] else []
  | none => []

/-- The complete argument list for the assembly tool (lines 96-171), as a
pure function of the settings, the icon converter's output, the current
directory and the CI environment variable. -/
def buildArgs (s : Settings) (icnsIcon : Option String) (cwd : Path)
    (ci : Option String) : Except PanicMsg (List String) := do
  let atts ← attachmentArgsOpt s.macos.attachments
  let bg ← backgroundArgs s.macos.background
  Except.ok (baseArgs s ++ atts ++ volIconArgs icnsIcon ++ bg ++
    eulaArgs cwd s.macos.license ++ ciArgs ci)

/-- The result of one pipeline run: outcome, final filesystem, and the
trace of collaborator invocations. -/
structure RunResult where
  outcome : Outcome
  fs : Fs
  trace : List Event
deriving DecidableEq

/-- The pipeline from staging onward (lines 36-189), after the optional
application-bundle build. -/
def afterApp (s : Settings) (w : World) (fs0 : Fs) : RunResult :=
  let fs1 := stageFs s fs0
  -- chmod script for execution (lines 87-94); spawn failure panics via
  -- expect, an exited process is never inspected
  match w.chmodResult with
  | .spawnFailed _ => ⟨.panicked ("Failed to chmod script"), fs1, [.chmodCall (bundleScriptPath s)]⟩
  | .exited _ _ =>
    -- attachment names are resolved (and can panic) before the icon
    -- converter runs (lines 116-143)
    match attachmentArgsOpt s.macos.attachments with
    | .error pm => ⟨.panicked pm, fs1, [.chmodCall (bundleScriptPath s)]⟩
    | .ok _ =>
      match w.icnsResult with
      | .error e => ⟨.error e, fs1, [.chmodCall (bundleScriptPath s)]⟩
      | .ok ico =>
        match buildArgs s ico w.currentDir w.ciVar with
        | .error pm => ⟨.panicked pm, fs1, [.chmodCall (bundleScriptPath s)]⟩
        | .ok args =>
          let fullArgs := args ++ [dmgName s, bundleFileName s]
          let trace2 := [Event.chmodCall (bundleScriptPath s),
                         Event.runScript (bundleScriptPath s) (bundleDir s) fullArgs]
          -- execute the bundle script (lines 176-181)
          match w.scriptResult with
          | .spawnFailed _ => ⟨.error ("error running bundle_dmg.sh"), fs1, trace2⟩
          | .exited status _ =>
            if status = 0 then
              -- the tool drops the DMG into the bundle directory, then
              -- line 183 renames it into the planned artifact path
              let fs2 := writeFile (bundleDir s ++ [dmgName s]) dmgBlob fs1
              let fs3 := renameFile (bundleDir s ++ [dmgName s]) (dmgPath s) fs2
              match s.macos.signing_identity with
              | some identity =>
                match w.signResult identity with
                | .error e => ⟨.error e, fs3, trace2 ++ [.signCall (dmgPath s) identity]⟩
                | .ok _ => ⟨.ok [dmgPath s], fs3, trace2 ++ [.signCall (dmgPath s) identity]⟩
              | none => ⟨.ok [dmgPath s], fs3, trace2⟩
            else ⟨.error ("error running bundle_dmg.sh"), fs1, trace2⟩

/-- The whole pipeline (`bundle_project`): build the application bundle
when no macOS bundle is among the inputs (lines 27-34), then stage,
assemble and finalize. -/
def bundle_project (s : Settings) (bundles : List Bundle) (w : World)
    (fs0 : Fs) : RunResult :=
  if (bundles.filter (fun b => b.package_type == PackageType.MacOsBundle)).length = 0 then
    match w.appBundleResult with
    | .error e => ⟨.error e, fs0, [.appBundle]⟩
    | .ok _ =>
      let r := afterApp s w fs0
      ⟨r.outcome, r.fs, Event.appBundle :: r.trace⟩
  else afterApp s w fs0

/-- The concrete settings of the end-to-end scenario. -/
def exampleSettings (out : Path) : Settings :=
  { project_out_directory := out
    main_binary_name := "MyApp"
    version_string := "1.0.0"
    binary_arch := "x86_64"
    macos :=
      { attachments := none
        background := none
        license := none
        signing_identity := none } }

/-- A world where every collaborator succeeds and CI is unset. -/
def goodWorld : World :=
  { appBundleResult := Except.ok ()
    chmodResult := ProcResult.exited 0 ("")
    icnsResult := Except.ok none
    currentDir := []
    ciVar := none
    scriptResult := ProcResult.exited 0 ("")
    signResult := fun _ => Except.ok () }

/-- The 17 leading arguments of the end-to-end scenario. -/
def c2Args : List String :=
  ["--no-internet-enable", "--volname", "MyApp", "--icon-size", "100",
   "--icon", "MyApp.app", "75", "64", "--app-drop-link", "396", "64",
   "--window-size", "571", "375", "--hide-extension", "MyApp.app"]

/-- On a successful run, the returned artifact list is the planned dmg
path and nothing else. -/
theorem afterApp_ok (s : Settings) (w : World) (fs : Fs) (arts : List Path)
    (h : (afterApp s w fs).outcome = Outcome.ok arts) : arts = [dmgPath s] := by
  unfold afterApp at h
  repeat' split at h
  all_goals simp_all

/-- Lifting `afterApp_ok` through the application-bundle stage. -/
theorem bundle_project_ok (s : Settings) (bundles : List Bundle) (w : World)
    (fs : Fs) (arts : List Path)
    (h : (bundle_project s bundles w fs).outcome = Outcome.ok arts) :
    arts = [dmgPath s] := by
  unfold bundle_project at h
  split at h
  · split at h
    · simp_all
    · exact afterApp_ok s w fs arts h
  · exact afterApp_ok s w fs arts h

/-- The artifact name formula, with the architecture normalization spelled
out as an if-then-else. -/
theorem dmgPath_eq (s : Settings) :
    dmgPath s = s.project_out_directory ++
      ["bundle", "dmg",
       s.main_binary_name ++ "_" ++ s.version_string ++ "_" ++
         (if s.binary_arch = "x86_64" then "x64" else s.binary_arch) ++ ".dmg"] := by
  unfold dmgPath outputPath dmgName packageBaseName
  by_cases h : s.binary_arch = "x86_64" <;> simp [h]

/-- C1: for every Settings, a successful pipeline run returns exactly one
artifact, whose path is the output directory extended by
bundle/dmg/<binaryName>_<version>_<arch>.dmg, where the architecture
x86_64 is replaced by x64 and every other architecture is unchanged. -/
theorem dmg_c1_artifact_name (s : Settings) (bundles : List Bundle)
    (w : World) (fs : Fs) (arts : List Path)
    (h : (bundle_project s bundles w fs).outcome = Outcome.ok arts) :
    arts = [s.project_out_directory ++
      ["bundle", "dmg",
       s.main_binary_name ++ "_" ++ s.version_string ++ "_" ++
         (if s.binary_arch = "x86_64" then "x64" else s.binary_arch) ++ ".dmg"]] := by
  rw [bundle_project_ok s bundles w fs arts h, dmgPath_eq]

/-- Witness for C1 at the concrete end-to-end scenario settings. -/
theorem dmg_c1_artifact_name_witness :
    (bundle_project (exampleSettings ["out"]) [] goodWorld []).outcome =
      Outcome.ok [["out", "bundle", "dmg", "MyApp_1.0.0_x64.dmg"]] ∧
    [["out", "bundle", "dmg", "MyApp_1.0.0_x64.dmg"]] =
      [(exampleSettings ["out"]).project_out_directory ++
        ["bundle", "dmg",
         (exampleSettings ["out"]).main_binary_name ++ "_" ++
           (exampleSettings ["out"]).version_string ++ "_" ++
           (if (exampleSettings ["out"]).binary_arch = "x86_64" then "x64"
            else (exampleSettings ["out"]).binary_arch) ++ ".dmg"]] :=
  ⟨by decide, dmg_c1_artifact_name (exampleSettings ["out"]) [] goodWorld []
      [["out", "bundle", "dmg", "MyApp_1.0.0_x64.dmg"]] (by decide)⟩

/-- C2: in the end-to-end scenario (binary MyApp, version 1.0.0, arch
x86_64, no attachments, no background, no license, no icon, CI not equal
to true) the argument list is exactly the 17 fixed strings, the artifact
path is the output directory extended by bundle/dmg/MyApp_1.0.0_x64.dmg,
and none of the optional flags appear. -/
theorem dmg_c2_scenario (out cwd : Path) (ci : Option String)
    (h : ci ≠ some ("true")) :
    buildArgs (exampleSettings out) none cwd ci = Except.ok c2Args ∧
    dmgPath (exampleSettings out) = out ++ ["bundle", "dmg", "MyApp_1.0.0_x64.dmg"] ∧
    "--add-file" ∉ c2Args ∧ "--volicon" ∉ c2Args ∧ "--background" ∉ c2Args ∧
    "--eula" ∉ c2Args ∧ "--skip-jenkins" ∉ c2Args := by
  refine ⟨?_, ?_, by decide, by decide, by decide, by decide, by decide⟩
  · rcases ci with _ | v
    · rfl
    · have hv : ¬ v = "true" := fun hv => h (by rw [hv])
      simp [buildArgs, exampleSettings, attachmentArgsOpt, backgroundArgs,
        volIconArgs, eulaArgs, ciArgs, baseArgs, bundleFileName, c2Args, hv,
        Except.bind, bind, pure, Except.pure]
  · have hn : dmgName (exampleSettings out) = "MyApp_1.0.0_x64.dmg" := rfl
    unfold dmgPath outputPath
    rw [hn]
    simp [exampleSettings]

/-- Witness for C2 with the CI variable unset. -/
theorem dmg_c2_scenario_witness :
    (none ≠ some ("true")) ∧
    (buildArgs (exampleSettings ["out"]) none [] none = Except.ok c2Args ∧
     dmgPath (exampleSettings ["out"]) = ["out"] ++ ["bundle", "dmg", "MyApp_1.0.0_x64.dmg"] ∧
     "--add-file" ∉ c2Args ∧ "--volicon" ∉ c2Args ∧ "--background" ∉ c2Args ∧
     "--eula" ∉ c2Args ∧ "--skip-jenkins" ∉ c2Args) :=
  ⟨by decide, dmg_c2_scenario ["out"] [] none (by decide)⟩

/-- Induction on a list two elements at a time, matching the chunk
structure of the attachment loop. -/
theorem twoStepInduction {α : Type} {motive : List α → Prop} (h0 : motive [])
    (h1 : ∀ a, motive [a])
    (h2 : ∀ a b rest, motive rest → motive (a :: b :: rest)) :
    ∀ l, motive l
  | [] => h0
  | [a] => h1 a
  | a :: b :: rest => h2 a b rest (twoStepInduction h0 h1 h2 rest)

/-- The layout as the spec words it: the attachment at 0-based position j
sits in row j / 2 at y = 64 + (j / 2 + 1) * (100 + 60), in the left
column (x 75) when j is even and the right column (x 396) when j is
odd. -/
def specLayoutArgs : Nat → List String → List String
  | _, [] => []
  | j, n :: rest =>
    ["--add-file", n, n, if j % 2 = 0 then "75" else "396",
     toString (64 + (j / 2 + 1) * (100 + 60))] ++ specLayoutArgs (j + 1) rest

/-- The attachment loop from chunk index i onward agrees with the
per-position spec layout from position 2 * i onward. -/
theorem attachmentArgsAux_eq (l : List Path) : ∀ (i : Nat) (ns : List String),
    l.map fileName = ns.map some →
    attachmentArgsAux i l = Except.ok (specLayoutArgs (2 * i) ns) := by
  induction l using twoStepInduction with
  | h0 =>
    intro i ns h
    cases ns with
    | nil => rfl
    | cons n rest => simp at h
  | h1 a =>
    intro i ns h
    cases ns with
    | nil => simp at h
    | cons n rest =>
      simp only [List.map_cons, List.map_nil, List.cons.injEq] at h
      obtain ⟨ha, hrest⟩ := h
      have hr : rest = [] := by
        cases rest with
        | nil => rfl
        | cons x xs => simp at hrest
      subst hr
      have e1 : 2 * i % 2 = 0 := by omega
      have e2 : 2 * i / 2 = i := by omega
      simp [attachmentArgsAux, specLayoutArgs, unwrapFileName, ha, e1, e2,
        Except.bind, bind]
  | h2 a b rest ih =>
    intro i ns h
    cases ns with
    | nil => simp at h
    | cons n1 ns1 =>
      cases ns1 with
      | nil =>
        simp only [List.map_cons, List.map_nil, List.cons.injEq] at h
        simp at h
      | cons n2 ns2 =>
        simp only [List.map_cons, List.cons.injEq] at h
        obtain ⟨ha, hb, hrest⟩ := h
        have e1 : 2 * i % 2 = 0 := by omega
        have e2 : 2 * i / 2 = i := by omega
        have e3 : (2 * i + 1) % 2 = 1 := by omega
        have e4 : (2 * i + 1) / 2 = i := by omega
        have e5 : 2 * i + 1 + 1 = 2 * (i + 1) := by omega
        simp [attachmentArgsAux, specLayoutArgs, unwrapFileName, ha, hb,
          ih (i + 1) ns2 hrest, Except.bind, bind, e1, e2, e3, e4, e5]

/-- C3: attachments are laid out pairwise in input order, the pair at row
index i at y = 64 + (i + 1) * (100 + 60), the first of a pair at x 75 and
the second at x 396, an odd final attachment alone in the left column; in
particular five attachments give rows at y 224, 384, 544 with the fifth
alone at x 75. -/
theorem dmg_c3_attachment_layout (l : List Path) (ns : List String)
    (h : l.map fileName = ns.map some) :
    attachmentArgs l = Except.ok (specLayoutArgs 0 ns) ∧
    (∀ a b c d e : String, attachmentArgs [[a], [b], [c], [d], [e]] =
      Except.ok ["--add-file", a, a, "75", "224",
                 "--add-file", b, b, "396", "224",
                 "--add-file", c, c, "75", "384",
                 "--add-file", d, d, "396", "384",
                 "--add-file", e, e, "75", "544"]) := by
  constructor
  · simpa using attachmentArgsAux_eq l 0 ns h
  · intro a b c d e
    rfl

/-- Witness for C3 at a five-attachment list. -/
theorem dmg_c3_attachment_layout_witness :
    ([["a"], ["b"], ["c"], ["d"], ["e"]].map fileName =
      (["a", "b", "c", "d", "e"]).map some) ∧
    (attachmentArgs [["a"], ["b"], ["c"], ["d"], ["e"]] =
      Except.ok (specLayoutArgs 0 ["a", "b", "c", "d", "e"]) ∧
    (∀ a b c d e : String, attachmentArgs [[a], [b], [c], [d], [e]] =
      Except.ok ["--add-file", a, a, "75", "224",
                 "--add-file", b, b, "396", "224",
                 "--add-file", c, c, "75", "384",
                 "--add-file", d, d, "396", "384",
                 "--add-file", e, e, "75", "544"])) :=
  ⟨by decide, dmg_c3_attachment_layout [["a"], ["b"], ["c"], ["d"], ["e"]]
    ["a", "b", "c", "d", "e"] (by decide)⟩

/-- The CI flag branch, as an if-then-else on the variable's value. -/
theorem ciArgs_eq (ci : Option String) :
    ciArgs ci = if ci = some ("true") then ["--skip-jenkins"] else [] := by
  cases ci with
  | none => rfl
  | some v => simp [ciArgs]

/-- Changing only the CI variable appends exactly the skip-jenkins flag,
and only for the literal value true. -/
theorem buildArgs_ci (s : Settings) (icnsIcon : Option String) (cwd : Path)
    (ci : Option String) (args0 : List String)
    (h0 : buildArgs s icnsIcon cwd none = Except.ok args0) :
    buildArgs s icnsIcon cwd ci =
      Except.ok (args0 ++ (if ci = some ("true") then ["--skip-jenkins"] else [])) := by
  unfold buildArgs at h0 ⊢
  rcases hA : attachmentArgsOpt s.macos.attachments with pm | atts <;>
    rw [hA] at h0
  · simp [Except.bind, bind] at h0
  · rcases hB : backgroundArgs s.macos.background with pm | bg <;>
      rw [hB] at h0
    · simp [Except.bind, bind] at h0
    · simp only [Except.bind, bind, Except.ok.injEq] at h0 ⊢
      rw [← h0, ciArgs_eq]
      simp [ciArgs]

/-- C4: the argument list carries the skip-jenkins flag exactly when the
CI variable equals the literal true; any other value, or no value, omits
it (the membership reading needs the flag string not to occur among the
settings-derived arguments). -/
theorem dmg_c4_skip_jenkins (s : Settings) (icnsIcon : Option String)
    (cwd : Path) (ci : Option String) (args0 args : List String)
    (h0 : buildArgs s icnsIcon cwd none = Except.ok args0)
    (h : buildArgs s icnsIcon cwd ci = Except.ok args) :
    args = args0 ++ (if ci = some ("true") then ["--skip-jenkins"] else []) ∧
    ("--skip-jenkins" ∉ args0 →
      ("--skip-jenkins" ∈ args ↔ ci = some ("true"))) := by
  have hc := buildArgs_ci s icnsIcon cwd ci args0 h0
  rw [h] at hc
  have harg : args = args0 ++ (if ci = some ("true") then ["--skip-jenkins"] else []) :=
    Except.ok.inj hc
  refine ⟨harg, fun hclean => ?_⟩
  subst harg
  by_cases hci : ci = some ("true") <;> simp [hci, hclean]

/-- Witness for C4 with the CI variable set to true. -/
theorem dmg_c4_skip_jenkins_witness :
    (buildArgs (exampleSettings ["out"]) none [] none = Except.ok c2Args) ∧
    (buildArgs (exampleSettings ["out"]) none [] (some ("true")) =
      Except.ok (c2Args ++ ["--skip-jenkins"])) ∧
    ((c2Args ++ ["--skip-jenkins"]) = c2Args ++
        (if (some ("true") : Option String) = some ("true")
         then ["--skip-jenkins"] else []) ∧
     ("--skip-jenkins" ∉ c2Args →
       ("--skip-jenkins" ∈ c2Args ++ ["--skip-jenkins"] ↔
         (some ("true") : Option String) = some ("true")))) :=
  ⟨rfl, rfl,
   dmg_c4_skip_jenkins (exampleSettings ["out"]) none [] (some ("true"))
     c2Args (c2Args ++ ["--skip-jenkins"]) rfl rfl⟩

/-- A directory is an ancestor of every path that extends it. -/
theorem underDir_refl_append (d t : Path) : underDir d (d ++ t) = true := by
  induction d with
  | nil => rfl
  | cons a as ih => simp [underDir, ih]

/-- Ancestry is invariant under a common leading path. -/
theorem underDir_append_left (d a b : Path) :
    underDir (d ++ a) (d ++ b) = underDir a b := by
  induction d with
  | nil => rfl
  | cons x xs ih => simp [underDir, ih]

/-- Membership in the filesystem after one write. -/
theorem mem_writeFile (p : Path) (c : String) (fs : Fs) (e : Path × String) :
    e ∈ writeFile p c fs ↔ e = (p, c) ∨ (e ∈ fs ∧ ¬ e.1 = p) := by
  simp [writeFile, List.mem_filter]

/-- After the conditional removal of the output directory, no remaining
file lies under it: either it was just removed wholesale, or nothing was
ever under it. -/
theorem not_underDir_of_stale (s : Settings) (fs : Fs) (e : Path × String)
    (he : e ∈ (if existsPath (outputPath s) fs
               then removeDirAll (outputPath s) fs else fs)) :
    underDir (outputPath s) e.1 = false := by
  split at he
  · simp [removeDirAll, List.mem_filter] at he
    exact he.2
  · rename_i hex
    simp [existsPath, List.any_eq_true] at hex
    exact hex e.1 e.2 he

/-- Ancestry by an extended directory implies ancestry by the directory. -/
theorem underDir_trans_append (d a q : Path)
    (h : underDir (d ++ a) q = true) : underDir d q = true := by
  induction d generalizing q with
  | nil => rfl
  | cons x xs ih =>
    cases q with
    | nil => simp [underDir] at h
    | cons y ys =>
      simp only [List.cons_append, underDir, Bool.and_eq_true] at h ⊢
      exact ⟨h.1, ih ys h.2⟩

/-- C5: for every prior filesystem state, the output directory after
staging holds exactly the three freshly written resources, and the
support directory exactly the two templates; no file from a previous run
survives. -/
theorem dmg_c5_clean_slate (s : Settings) (fs : Fs) (e : Path × String) :
    (e ∈ filesUnder (outputPath s) (stageFs s fs) ↔
      e ∈ [(supportDirectoryPath s ++ ["eula-resources-template.xml"], eulaTemplateBlob),
           (supportDirectoryPath s ++ ["template.applescript"], templateApplescriptBlob),
           (bundleScriptPath s, bundleDmgScriptBlob)]) ∧
    (e ∈ filesUnder (supportDirectoryPath s) (stageFs s fs) ↔
      e ∈ [(supportDirectoryPath s ++ ["eula-resources-template.xml"], eulaTemplateBlob),
           (supportDirectoryPath s ++ ["template.applescript"], templateApplescriptBlob)]) := by
  have hOutE : underDir (outputPath s)
      (supportDirectoryPath s ++ ["eula-resources-template.xml"]) = true := by
    simpa [supportDirectoryPath, List.append_assoc] using
      underDir_refl_append (outputPath s) ["support", "eula-resources-template.xml"]
  have hOutT : underDir (outputPath s)
      (supportDirectoryPath s ++ ["template.applescript"]) = true := by
    simpa [supportDirectoryPath, List.append_assoc] using
      underDir_refl_append (outputPath s) ["support", "template.applescript"]
  have hOutS : underDir (outputPath s) (bundleScriptPath s) = true := by
    simpa [bundleScriptPath] using
      underDir_refl_append (outputPath s) ["bundle_dmg.sh"]
  have hSupE : underDir (supportDirectoryPath s)
      (supportDirectoryPath s ++ ["eula-resources-template.xml"]) = true :=
    underDir_refl_append _ _
  have hSupT : underDir (supportDirectoryPath s)
      (supportDirectoryPath s ++ ["template.applescript"]) = true :=
    underDir_refl_append _ _
  have hSupS : underDir (supportDirectoryPath s) (bundleScriptPath s) = false := by
    have h2 := underDir_append_left (outputPath s) ["support"] ["bundle_dmg.sh"]
    simpa [supportDirectoryPath, bundleScriptPath] using h2
  have hneTE : ¬ (supportDirectoryPath s ++ ["template.applescript"] =
      supportDirectoryPath s ++ ["eula-resources-template.xml"]) := by
    intro h
    have h2 := congrArg List.getLast? h
    rw [List.getLast?_concat, List.getLast?_concat] at h2
    exact absurd (Option.some.inj h2) (by decide)
  have hneSE : ¬ (bundleScriptPath s =
      supportDirectoryPath s ++ ["eula-resources-template.xml"]) := by
    intro h
    have h2 := congrArg List.getLast? h
    rw [bundleScriptPath, List.getLast?_concat, List.getLast?_concat] at h2
    exact absurd (Option.some.inj h2) (by decide)
  have hneST : ¬ (bundleScriptPath s =
      supportDirectoryPath s ++ ["template.applescript"]) := by
    intro h
    have h2 := congrArg List.getLast? h
    rw [bundleScriptPath, List.getLast?_concat, List.getLast?_concat] at h2
    exact absurd (Option.some.inj h2) (by decide)
  have hchar : ∀ x : Path × String, x ∈ stageFs s fs ↔
      (x = (supportDirectoryPath s ++ ["eula-resources-template.xml"], eulaTemplateBlob) ∨
       x = (supportDirectoryPath s ++ ["template.applescript"], templateApplescriptBlob) ∨
       x = (bundleScriptPath s, bundleDmgScriptBlob) ∨
       (x ∈ (if existsPath (outputPath s) fs
             then removeDirAll (outputPath s) fs else fs) ∧
        underDir (outputPath s) x.1 = false)) := by
    intro x
    simp only [stageFs, mem_writeFile]
    constructor
    · rintro (hE | ⟨(hT | ⟨(hS | ⟨hfs, _⟩), _⟩), _⟩)
      · exact Or.inl hE
      · exact Or.inr (Or.inl hT)
      · exact Or.inr (Or.inr (Or.inl hS))
      · exact Or.inr (Or.inr (Or.inr ⟨hfs, not_underDir_of_stale s fs x hfs⟩))
    · rintro (hE | hT | hS | ⟨hfs, hun⟩)
      · exact Or.inl hE
      · refine Or.inr ⟨Or.inl hT, ?_⟩
        rw [hT]
        exact hneTE
      · refine Or.inr ⟨Or.inr ⟨Or.inl hS, ?_⟩, ?_⟩ <;> rw [hS]
        · exact hneST
        · exact hneSE
      · refine Or.inr ⟨Or.inr ⟨Or.inr ⟨hfs, ?_⟩, ?_⟩, ?_⟩
        · intro h
          rw [h, hOutS] at hun
          simp at hun
        · intro h
          rw [h, hOutT] at hun
          simp at hun
        · intro h
          rw [h, hOutE] at hun
          simp at hun
  have hmemU : ∀ (d : Path) (g : Fs) (x : Path × String),
      x ∈ filesUnder d g ↔ x ∈ g ∧ underDir d x.1 = true := by
    intro d g x
    simp [filesUnder, List.mem_filter]
  constructor
  · constructor
    · intro h
      rw [hmemU] at h
      obtain ⟨hm, hu⟩ := h
      rcases (hchar e).mp hm with hE | hT | hS | ⟨_, hun⟩
      · simp [hE]
      · simp [hT]
      · simp [hS]
      · rw [hu] at hun
        simp at hun
    · intro h
      simp only [List.mem_cons, List.not_mem_nil, or_false] at h
      rw [hmemU]
      rcases h with hE | hT | hS
      · exact ⟨(hchar e).mpr (Or.inl hE), by rw [hE]; exact hOutE⟩
      · exact ⟨(hchar e).mpr (Or.inr (Or.inl hT)), by rw [hT]; exact hOutT⟩
      · exact ⟨(hchar e).mpr (Or.inr (Or.inr (Or.inl hS))), by rw [hS]; exact hOutS⟩
  · constructor
    · intro h
      rw [hmemU] at h
      obtain ⟨hm, hu⟩ := h
      rcases (hchar e).mp hm with hE | hT | hS | ⟨_, hun⟩
      · simp [hE]
      · simp [hT]
      · rw [hS] at hu
        rw [hu] at hSupS
        simp at hSupS
      · have h2 := underDir_trans_append (outputPath s) ["support"] e.1 hu
        rw [h2] at hun
        simp at hun
    · intro h
      simp only [List.mem_cons, List.not_mem_nil, or_false] at h
      rw [hmemU]
      rcases h with hE | hT
      · exact ⟨(hchar e).mpr (Or.inl hE), by rw [hE]; exact hSupE⟩
      · exact ⟨(hchar e).mpr (Or.inr (Or.inl hT)), by rw [hT]; exact hSupT⟩

/-- Settings whose single attachment path has no file-name component. -/
def badSettings : Settings :=
  { project_out_directory := ["out"]
    main_binary_name := "MyApp"
    version_string := "1.0.0"
    binary_arch := "x86_64"
    macos :=
      { attachments := some [[]]
        background := none
        license := none
        signing_identity := none } }

/-- C6 counterexample: with an attachment path lacking a file-name
component, the pipeline panics (the Rust unwrap aborts the process); the
outcome is not a reported error. -/
theorem dmg_c6_counterexample :
    (bundle_project badSettings [] goodWorld []).outcome =
      Outcome.panicked ("called Option unwrap on a None value") ∧
    (bundle_project badSettings [] goodWorld []).outcome.isError = false :=
  ⟨rfl, rfl⟩

/-- A list all of whose path entries carry a file name yields a built row
list for every starting chunk index. -/
theorem attachmentArgsAux_ok (l : List Path) :
    (∀ p ∈ l, (fileName p).isSome) →
    ∀ i : Nat, ∃ r, attachmentArgsAux i l = Except.ok r := by
  induction l using twoStepInduction with
  | h0 =>
    intro _ i
    exact ⟨[], rfl⟩
  | h1 a =>
    intro h i
    obtain ⟨n, hn⟩ := Option.isSome_iff_exists.mp (h a (by simp))
    refine ⟨["--add-file", n, n, "75", toString (64 + (i + 1) * (100 + 60))], ?_⟩
    simp [attachmentArgsAux, unwrapFileName, hn, Except.bind, bind]
  | h2 a b rest ih =>
    intro h i
    obtain ⟨n1, hn1⟩ := Option.isSome_iff_exists.mp (h a (by simp))
    obtain ⟨n2, hn2⟩ := Option.isSome_iff_exists.mp (h b (by simp))
    obtain ⟨r, hr⟩ := ih (fun p hp => h p (by simp [hp])) (i + 1)
    refine ⟨["--add-file", n1, n1, "75", toString (64 + (i + 1) * (100 + 60)),
             "--add-file", n2, n2, "396", toString (64 + (i + 1) * (100 + 60))] ++ r, ?_⟩
    simp [attachmentArgsAux, unwrapFileName, hn1, hn2, hr, Except.bind, bind]

/-- C6 amended: argument construction succeeds for every Settings whose
attachment and background paths all have a file-name component; when one
lacks it the construction panics (a crash), it is not reported as a
recoverable configuration error. -/
theorem dmg_c6_amended (s : Settings) (icnsIcon : Option String) (cwd : Path)
    (ci : Option String)
    (hatt : ∀ p ∈ s.macos.attachments.getD [], (fileName p).isSome)
    (hbg : ∀ p ∈ s.macos.background.toList, (fileName p).isSome) :
    ∃ args, buildArgs s icnsIcon cwd ci = Except.ok args := by
  have hA : ∃ atts, attachmentArgsOpt s.macos.attachments = Except.ok atts := by
    cases hA0 : s.macos.attachments with
    | none => exact ⟨[], rfl⟩
    | some l =>
      rw [hA0] at hatt
      simp only [Option.getD_some] at hatt
      obtain ⟨r, hr⟩ := attachmentArgsAux_ok l hatt 0
      exact ⟨r, by simpa [attachmentArgsOpt, attachmentArgs] using hr⟩
  have hB : ∃ bg, backgroundArgs s.macos.background = Except.ok bg := by
    cases hB0 : s.macos.background with
    | none => exact ⟨[], rfl⟩
    | some p =>
      rw [hB0] at hbg
      simp only [Option.toList_some, List.mem_singleton, forall_eq] at hbg
      obtain ⟨n, hn⟩ := Option.isSome_iff_exists.mp hbg
      exact ⟨["--background", n],
        by simp [backgroundArgs, unwrapFileName, hn, Except.bind, bind]⟩
  obtain ⟨atts, hA1⟩ := hA
  obtain ⟨bg, hB1⟩ := hB
  refine ⟨baseArgs s ++ atts ++ volIconArgs icnsIcon ++ bg ++
    eulaArgs cwd s.macos.license ++ ciArgs ci, ?_⟩
  simp [buildArgs, hA1, hB1, Except.bind, bind]

/-- Settings configuring attachments and a background whose paths all
carry file names. -/
def richSettings : Settings :=
  { project_out_directory := ["out"]
    main_binary_name := "MyApp"
    version_string := "1.0.0"
    binary_arch := "aarch64"
    macos :=
      { attachments := some [["docs", "readme.txt"]]
        background := some ["bg.png"]
        license := none
        signing_identity := none } }

/-- Witness for the amended C6 at settings with an attachment and a
background. -/
theorem dmg_c6_amended_witness :
    (∀ p ∈ richSettings.macos.attachments.getD [], (fileName p).isSome) ∧
    (∀ p ∈ richSettings.macos.background.toList, (fileName p).isSome) ∧
    (∃ args, buildArgs richSettings none [] none = Except.ok args) :=
  ⟨by decide, by decide,
   dmg_c6_amended richSettings none [] none (by decide) (by decide)⟩

/-- The chmod outcome, as long as the process spawned, never influences
the run. -/
theorem afterApp_chmod_irrelevant (s : Settings) (w : World) (fs : Fs)
    (c : Nat) (o : String) (hc : w.chmodResult = ProcResult.exited c o) :
    afterApp s w fs =
      afterApp s { w with chmodResult := ProcResult.exited 0 ("") } fs := by
  unfold afterApp
  rw [hc]

/-- Lifting `afterApp_chmod_irrelevant` over the whole pipeline. -/
theorem bundle_project_chmod_irrelevant (s : Settings) (bundles : List Bundle)
    (w : World) (fs : Fs) (c : Nat) (o : String)
    (hc : w.chmodResult = ProcResult.exited c o) :
    bundle_project s bundles w fs =
      bundle_project s bundles { w with chmodResult := ProcResult.exited 0 ("") } fs := by
  have ha := afterApp_chmod_irrelevant s w fs c o hc
  unfold bundle_project
  rw [ha]

/-- When every stage before the tool invocation passes, the run script is
invoked with the built arguments and the two trailing positionals. -/
theorem runScript_mem_afterApp (s : Settings) (w : World) (fs : Fs)
    (c : Nat) (o : String) (hc : w.chmodResult = ProcResult.exited c o)
    (atts : List String)
    (hatt : attachmentArgsOpt s.macos.attachments = Except.ok atts)
    (ico : Option String) (hicns : w.icnsResult = Except.ok ico)
    (args : List String)
    (hargs : buildArgs s ico w.currentDir w.ciVar = Except.ok args) :
    Event.runScript (bundleScriptPath s) (bundleDir s)
      (args ++ [dmgName s, bundleFileName s]) ∈ (afterApp s w fs).trace := by
  unfold afterApp
  simp only [hc, hatt, hicns, hargs]
  rcases hscr : w.scriptResult with m | ⟨st, o2⟩
  · simp
  · by_cases hst : st = 0
    · simp only [hst, if_pos rfl]
      rcases hid : s.macos.signing_identity with _ | ident
      · simp
      · rcases hsr : w.signResult ident with e2 | u <;> simp [hsr]
    · simp [hst]

/-- C7: a chmod process that runs and exits with a failing status is
tolerated: the run is indistinguishable from one whose chmod succeeded,
and execution still reaches the assembly-tool invocation. -/
theorem dmg_c7_chmod_failure_tolerated (s : Settings) (bundles : List Bundle)
    (w : World) (fs : Fs) (c : Nat) (o : String)
    (hc : w.chmodResult = ProcResult.exited c o)
    (happ : (if (bundles.filter
        (fun b => b.package_type == PackageType.MacOsBundle)).length = 0
      then w.appBundleResult else Except.ok ()) = Except.ok ())
    (atts : List String)
    (hatt : attachmentArgsOpt s.macos.attachments = Except.ok atts)
    (ico : Option String) (hicns : w.icnsResult = Except.ok ico)
    (args : List String)
    (hargs : buildArgs s ico w.currentDir w.ciVar = Except.ok args) :
    bundle_project s bundles w fs =
      bundle_project s bundles { w with chmodResult := ProcResult.exited 0 ("") } fs ∧
    Event.runScript (bundleScriptPath s) (bundleDir s)
      (args ++ [dmgName s, bundleFileName s]) ∈ (bundle_project s bundles w fs).trace := by
  refine ⟨bundle_project_chmod_irrelevant s bundles w fs c o hc, ?_⟩
  have hm := runScript_mem_afterApp s w fs c o hc atts hatt ico hicns args hargs
  unfold bundle_project
  split
  · rename_i h
    rw [if_pos h] at happ
    rw [happ]
    simpa using hm
  · exact hm

/-- A world whose chmod invocation runs but exits with failure. -/
def chmodFailWorld : World :=
  { goodWorld with chmodResult := ProcResult.exited 1 ("denied") }

/-- Witness for C7 at the concrete scenario with a failing chmod. -/
theorem dmg_c7_chmod_failure_tolerated_witness :
    (chmodFailWorld.chmodResult = ProcResult.exited 1 ("denied")) ∧
    ((if (([] : List Bundle).filter
        (fun b => b.package_type == PackageType.MacOsBundle)).length = 0
      then chmodFailWorld.appBundleResult else Except.ok ()) = Except.ok ()) ∧
    (attachmentArgsOpt (exampleSettings ["out"]).macos.attachments = Except.ok []) ∧
    (chmodFailWorld.icnsResult = Except.ok none) ∧
    (buildArgs (exampleSettings ["out"]) none chmodFailWorld.currentDir
      chmodFailWorld.ciVar = Except.ok c2Args) ∧
    (bundle_project (exampleSettings ["out"]) [] chmodFailWorld [] =
      bundle_project (exampleSettings ["out"]) []
        { chmodFailWorld with chmodResult := ProcResult.exited 0 ("") } [] ∧
    Event.runScript (bundleScriptPath (exampleSettings ["out"]))
      (bundleDir (exampleSettings ["out"]))
      (c2Args ++ [dmgName (exampleSettings ["out"]),
                  bundleFileName (exampleSettings ["out"])]) ∈
      (bundle_project (exampleSettings ["out"]) [] chmodFailWorld []).trace) :=
  ⟨rfl, rfl, rfl, rfl, rfl,
   dmg_c7_chmod_failure_tolerated (exampleSettings ["out"]) [] chmodFailWorld []
     1 ("denied") rfl rfl [] rfl none rfl c2Args rfl⟩

/-- The assembly-tool invocations recorded in a trace: script path,
working directory and argument list of each. -/
def scriptEvents : List Event → List (Path × Path × List String)
  | [] => []
  | Event.runScript p cwd args :: rest => (p, cwd, args) :: scriptEvents rest
  | _ :: rest => scriptEvents rest

/-- When every stage before the tool invocation passes, the trace holds
exactly one tool invocation, fully determined by the settings, the icon,
the current directory and the CI variable. -/
theorem scriptEvents_afterApp (s : Settings) (w : World) (fs : Fs)
    (c : Nat) (o : String) (hc : w.chmodResult = ProcResult.exited c o)
    (atts : List String)
    (hatt : attachmentArgsOpt s.macos.attachments = Except.ok atts)
    (ico : Option String) (hicns : w.icnsResult = Except.ok ico)
    (args : List String)
    (hargs : buildArgs s ico w.currentDir w.ciVar = Except.ok args) :
    scriptEvents (afterApp s w fs).trace =
      [(bundleScriptPath s, bundleDir s, args ++ [dmgName s, bundleFileName s])] := by
  unfold afterApp
  simp only [hc, hatt, hicns, hargs]
  rcases hscr : w.scriptResult with m | ⟨st, o2⟩
  · simp [scriptEvents]
  · by_cases hst : st = 0
    · simp only [hst, if_pos rfl]
      rcases hid : s.macos.signing_identity with _ | ident
      · simp [scriptEvents]
      · rcases hsr : w.signResult ident with e2 | u <;> simp [hsr, scriptEvents]
    · simp [hst, scriptEvents]

/-- `scriptEvents_afterApp` lifted over the whole pipeline. -/
theorem scriptEvents_bundle_project (s : Settings) (bundles : List Bundle)
    (w : World) (fs : Fs) (c : Nat) (o : String)
    (happ : (if (bundles.filter
        (fun b => b.package_type == PackageType.MacOsBundle)).length = 0
      then w.appBundleResult else Except.ok ()) = Except.ok ())
    (hc : w.chmodResult = ProcResult.exited c o)
    (atts : List String)
    (hatt : attachmentArgsOpt s.macos.attachments = Except.ok atts)
    (ico : Option String) (hicns : w.icnsResult = Except.ok ico)
    (args : List String)
    (hargs : buildArgs s ico w.currentDir w.ciVar = Except.ok args) :
    scriptEvents (bundle_project s bundles w fs).trace =
      [(bundleScriptPath s, bundleDir s, args ++ [dmgName s, bundleFileName s])] := by
  have h2 := scriptEvents_afterApp s w fs c o hc atts hatt ico hicns args hargs
  unfold bundle_project
  split
  · rename_i h
    rw [if_pos h] at happ
    rw [happ]
    simpa [scriptEvents] using h2
  · exact h2

/-- C8: the argument list handed to the assembly tool and the final
artifact path are determined by the settings and the environment-derived
inputs alone; two runs differing in prior filesystem state and process
outputs agree on both. -/
theorem dmg_c8_determinism (s : Settings) (bundles : List Bundle)
    (w1 w2 : World) (fs1 fs2 : Fs) (c1 c2 : Nat) (o1 o2 : String)
    (happ1 : (if (bundles.filter
        (fun b => b.package_type == PackageType.MacOsBundle)).length = 0
      then w1.appBundleResult else Except.ok ()) = Except.ok ())
    (happ2 : (if (bundles.filter
        (fun b => b.package_type == PackageType.MacOsBundle)).length = 0
      then w2.appBundleResult else Except.ok ()) = Except.ok ())
    (hc1 : w1.chmodResult = ProcResult.exited c1 o1)
    (hc2 : w2.chmodResult = ProcResult.exited c2 o2)
    (atts : List String)
    (hatt : attachmentArgsOpt s.macos.attachments = Except.ok atts)
    (ico : Option String)
    (hi1 : w1.icnsResult = Except.ok ico) (hi2 : w2.icnsResult = Except.ok ico)
    (hcwd : w2.currentDir = w1.currentDir) (hci : w2.ciVar = w1.ciVar)
    (args : List String)
    (hargs : buildArgs s ico w1.currentDir w1.ciVar = Except.ok args) :
    scriptEvents (bundle_project s bundles w1 fs1).trace =
      scriptEvents (bundle_project s bundles w2 fs2).trace ∧
    scriptEvents (bundle_project s bundles w1 fs1).trace =
      [(bundleScriptPath s, bundleDir s, args ++ [dmgName s, bundleFileName s])] ∧
    (∀ a1, (bundle_project s bundles w1 fs1).outcome = Outcome.ok a1 →
      a1 = [dmgPath s]) ∧
    (∀ a2, (bundle_project s bundles w2 fs2).outcome = Outcome.ok a2 →
      a2 = [dmgPath s]) := by
  have h1 := scriptEvents_bundle_project s bundles w1 fs1 c1 o1 happ1 hc1
    atts hatt ico hi1 args hargs
  have hargs2 : buildArgs s ico w2.currentDir w2.ciVar = Except.ok args := by
    rw [hcwd, hci]
    exact hargs
  have h2 := scriptEvents_bundle_project s bundles w2 fs2 c2 o2 happ2 hc2
    atts hatt ico hi2 args hargs2
  exact ⟨h1.trans h2.symm, h1,
    fun a1 ha1 => bundle_project_ok s bundles w1 fs1 a1 ha1,
    fun a2 ha2 => bundle_project_ok s bundles w2 fs2 a2 ha2⟩

/-- A world with a failing chmod and a failing assembly tool, and stale
filesystem contents, for the determinism witness. -/
def altWorld : World :=
  { goodWorld with
      chmodResult := ProcResult.exited 1 ("x")
      scriptResult := ProcResult.exited 1 ("boom") }

/-- Witness for C8: the scenario run against a clean world and against a
world with failing processes and a stale filesystem. -/
theorem dmg_c8_determinism_witness :
    ((if (([] : List Bundle).filter
        (fun b => b.package_type == PackageType.MacOsBundle)).length = 0
      then goodWorld.appBundleResult else Except.ok ()) = Except.ok ()) ∧
    ((if (([] : List Bundle).filter
        (fun b => b.package_type == PackageType.MacOsBundle)).length = 0
      then altWorld.appBundleResult else Except.ok ()) = Except.ok ()) ∧
    (goodWorld.chmodResult = ProcResult.exited 0 ("")) ∧
    (altWorld.chmodResult = ProcResult.exited 1 ("x")) ∧
    (attachmentArgsOpt (exampleSettings ["out"]).macos.attachments = Except.ok []) ∧
    (goodWorld.icnsResult = Except.ok none) ∧
    (altWorld.icnsResult = Except.ok none) ∧
    (altWorld.currentDir = goodWorld.currentDir) ∧
    (altWorld.ciVar = goodWorld.ciVar) ∧
    (buildArgs (exampleSettings ["out"]) none goodWorld.currentDir
      goodWorld.ciVar = Except.ok c2Args) ∧
    (scriptEvents (bundle_project (exampleSettings ["out"]) []
        goodWorld []).trace =
      scriptEvents (bundle_project (exampleSettings ["out"]) []
        altWorld [(["stale"], "s")]).trace ∧
     scriptEvents (bundle_project (exampleSettings ["out"]) []
        goodWorld []).trace =
      [(bundleScriptPath (exampleSettings ["out"]),
        bundleDir (exampleSettings ["out"]),
        c2Args ++ [dmgName (exampleSettings ["out"]),
                   bundleFileName (exampleSettings ["out"])])] ∧
     (∀ a1, (bundle_project (exampleSettings ["out"]) []
        goodWorld []).outcome = Outcome.ok a1 →
        a1 = [dmgPath (exampleSettings ["out"])]) ∧
     (∀ a2, (bundle_project (exampleSettings ["out"]) []
        altWorld [(["stale"], "s")]).outcome = Outcome.ok a2 →
        a2 = [dmgPath (exampleSettings ["out"])])) :=
  ⟨rfl, rfl, rfl, rfl, rfl, rfl, rfl, rfl, rfl, rfl,
   dmg_c8_determinism (exampleSettings ["out"]) [] goodWorld altWorld
     [] [(["stale"], "s")] 0 1 ("") ("x") rfl rfl rfl rfl [] rfl none rfl rfl
     rfl rfl c2Args rfl⟩

/-- The stages after the application-bundle step never record an
application-bundle build. -/
theorem appBundle_not_mem_afterApp (s : Settings) (w : World) (fs : Fs) :
    Event.appBundle ∉ (afterApp s w fs).trace := by
  unfold afterApp
  rcases hc : w.chmodResult with m | ⟨st, o⟩ <;> simp only [hc]
  · simp
  · rcases hA : attachmentArgsOpt s.macos.attachments with pm | atts <;>
      simp only [hA]
    · simp
    · rcases hI : w.icnsResult with e | ico <;> simp only [hI]
      · simp
      · rcases hB : buildArgs s ico w.currentDir w.ciVar with pm | args <;>
          simp only [hB]
        · simp
        · rcases hS : w.scriptResult with m | ⟨st2, o2⟩ <;> simp only [hS]
          · simp
          · by_cases hst : st2 = 0
            · simp only [hst, if_pos rfl]
              rcases hid : s.macos.signing_identity with _ | ident <;>
                simp only [hid]
              · simp
              · rcases hsr : w.signResult ident with e2 | u <;> simp [hsr]
            · simp [hst]

/-- C9: the application-bundle builder runs exactly when no input bundle
has the macOS application-bundle package type. -/
theorem dmg_c9_app_bundle_iff (s : Settings) (bundles : List Bundle)
    (w : World) (fs : Fs) :
    (Event.appBundle ∈ (bundle_project s bundles w fs).trace ↔
      ∀ b ∈ bundles, b.package_type ≠ PackageType.MacOsBundle) := by
  have hiff : ((bundles.filter
      (fun b => b.package_type == PackageType.MacOsBundle)).length = 0) ↔
      (∀ b ∈ bundles, b.package_type ≠ PackageType.MacOsBundle) := by
    rw [List.length_eq_zero, List.filter_eq_nil_iff]
    simp
  unfold bundle_project
  split
  · rename_i h
    rcases hw : w.appBundleResult with e | u <;> simp [hw] <;> exact hiff.mp h
  · rename_i h
    have h2 := appBundle_not_mem_afterApp s w fs
    constructor
    · intro hm
      exact absurd hm h2
    · intro hall
      exact absurd (hiff.mpr hall) h

/-- Reading back a freshly written file returns its contents. -/
theorem readFile_writeFile (p : Path) (c : String) (g : Fs) :
    readFile p (writeFile p c g) = some c := by
  unfold readFile writeFile
  rw [List.find?_cons_of_pos _ (by simp)]
  rfl

/-- Renaming a freshly written file rewrites it at the destination. -/
theorem renameFile_writeFile (src dst : Path) (c : String) (g : Fs) :
    renameFile src dst (writeFile src c g) =
      writeFile dst c ((writeFile src c g).filter (fun x => !(x.1 == src))) := by
  have hf : (writeFile src c g).find? (fun e => e.1 == src) = some (src, c) := by
    unfold writeFile
    rw [List.find?_cons_of_pos _ (by simp)]
  unfold renameFile
  rw [hf]

/-- The sign-failure run, fully reduced: the error outcome, the renamed
artifact in the filesystem, and the full trace. -/
theorem afterApp_sign_error (s : Settings) (w : World) (fs : Fs)
    (c : Nat) (o o2 ident e : String)
    (hc : w.chmodResult = ProcResult.exited c o)
    (atts : List String)
    (hatt : attachmentArgsOpt s.macos.attachments = Except.ok atts)
    (ico : Option String) (hicns : w.icnsResult = Except.ok ico)
    (args : List String)
    (hargs : buildArgs s ico w.currentDir w.ciVar = Except.ok args)
    (hscr : w.scriptResult = ProcResult.exited 0 o2)
    (hid : s.macos.signing_identity = some ident)
    (hsign : w.signResult ident = Except.error e) :
    afterApp s w fs = ⟨Outcome.error e,
      renameFile (bundleDir s ++ [dmgName s]) (dmgPath s)
        (writeFile (bundleDir s ++ [dmgName s]) dmgBlob (stageFs s fs)),
      [Event.chmodCall (bundleScriptPath s),
       Event.runScript (bundleScriptPath s) (bundleDir s)
         (args ++ [dmgName s, bundleFileName s]),
       Event.signCall (dmgPath s) ident]⟩ := by
  unfold afterApp
  simp [hc, hatt, hicns, hargs, hscr, hid, hsign]

/-- C10: the rename into the final artifact path precedes signing, so a
failed signing step surfaces the signer's error while the renamed DMG
already sits at the final artifact path. -/
theorem dmg_c10_rename_before_sign (s : Settings) (bundles : List Bundle)
    (w : World) (fs : Fs) (c : Nat) (o o2 ident e : String)
    (happ : (if (bundles.filter
        (fun b => b.package_type == PackageType.MacOsBundle)).length = 0
      then w.appBundleResult else Except.ok ()) = Except.ok ())
    (hc : w.chmodResult = ProcResult.exited c o)
    (atts : List String)
    (hatt : attachmentArgsOpt s.macos.attachments = Except.ok atts)
    (ico : Option String) (hicns : w.icnsResult = Except.ok ico)
    (args : List String)
    (hargs : buildArgs s ico w.currentDir w.ciVar = Except.ok args)
    (hscr : w.scriptResult = ProcResult.exited 0 o2)
    (hid : s.macos.signing_identity = some ident)
    (hsign : w.signResult ident = Except.error e) :
    (bundle_project s bundles w fs).outcome = Outcome.error e ∧
    readFile (dmgPath s) (bundle_project s bundles w fs).fs = some dmgBlob := by
  have ha := afterApp_sign_error s w fs c o o2 ident e hc atts hatt ico hicns
    args hargs hscr hid hsign
  have hread : readFile (dmgPath s)
      (renameFile (bundleDir s ++ [dmgName s]) (dmgPath s)
        (writeFile (bundleDir s ++ [dmgName s]) dmgBlob (stageFs s fs))) =
      some dmgBlob := by
    rw [renameFile_writeFile, readFile_writeFile]
  unfold bundle_project
  split
  · rename_i h
    rw [if_pos h] at happ
    rw [happ]
    simp [ha, hread]
  · simp [ha, hread]

/-- Settings of the scenario with a configured signing identity. -/
def signSettings : Settings :=
  { project_out_directory := ["out"]
    main_binary_name := "MyApp"
    version_string := "1.0.0"
    binary_arch := "x86_64"
    macos :=
      { attachments := none
        background := none
        license := none
        signing_identity := some ("DevId") } }

/-- A world whose signer fails. -/
def signFailWorld : World :=
  { goodWorld with signResult := fun _ => Except.error ("sign failed") }

/-- Witness for C10 at the concrete scenario with a failing signer. -/
theorem dmg_c10_rename_before_sign_witness :
    ((if (([] : List Bundle).filter
        (fun b => b.package_type == PackageType.MacOsBundle)).length = 0
      then signFailWorld.appBundleResult else Except.ok ()) = Except.ok ()) ∧
    (signFailWorld.chmodResult = ProcResult.exited 0 ("")) ∧
    (attachmentArgsOpt signSettings.macos.attachments = Except.ok []) ∧
    (signFailWorld.icnsResult = Except.ok none) ∧
    (buildArgs signSettings none signFailWorld.currentDir
      signFailWorld.ciVar = Except.ok c2Args) ∧
    (signFailWorld.scriptResult = ProcResult.exited 0 ("")) ∧
    (signSettings.macos.signing_identity = some ("DevId")) ∧
    (signFailWorld.signResult ("DevId") = Except.error ("sign failed")) ∧
    ((bundle_project signSettings [] signFailWorld []).outcome =
        Outcome.error ("sign failed") ∧
     readFile (dmgPath signSettings)
        (bundle_project signSettings [] signFailWorld []).fs = some dmgBlob) :=
  ⟨rfl, rfl, rfl, rfl, rfl, rfl, rfl, rfl,
   dmg_c10_rename_before_sign signSettings [] signFailWorld [] 0 ("") ("")
     ("DevId") ("sign failed") rfl rfl [] rfl none rfl c2Args rfl rfl rfl rfl⟩

end Dmg
